import Mathlib

/-!
Shallow embedding of `src/script.js` (a client-side class-schedule page).

Modeling conventions:
* JS strings are Lean `String`s; a JSON field that may be absent
  (`undefined` in JS) is an `Option`.
* JS template-literal interpolation of `undefined` produces the text
  "undefined"; `jsStr` / `jsStrInt` model that stringification.
* The `period` field is numeric in the data files, so it is modeled as
  `Option Int` (absent fields are `none`).
* JS float arithmetic in the cosmetic animation-delay computation is
  modeled with exact rationals.
* `Array.prototype.sort` with a comparator is, per the ECMAScript
  specification, a stable sort; a comparator result that is `NaN`
  (arising when a `period` is `undefined`) is treated as `0`.  It is
  modeled as a stable insertion sort over the comparator.
* The DOM surface touched by the script (`scheduleContainer`,
  `statusDiv`, `currentScheduleDisplay`, `scheduleSelect`) is modeled
  as an explicit `DisplayState` record threaded through the handlers.
* The single `fetch` is modeled by passing the settled response (HTTP
  status plus the JSON-parse outcome of the body) as an argument.

The file embeds the first version of the script (its catalogs, icon
map and fibonacci-delay computation); the second, near-identical
version's catalogs are embedded as well (`scheduleFilesV2`,
`scheduleNamesV2`) for the catalog-consistency claim.
-/

namespace ClassSchedule

/-- One scheduled class period, as parsed from a JSON resource.  Every
field may be absent (`none` models a missing field / JS `undefined`). -/
structure ScheduleEntry where
  period : Option Int
  className : Option String
  teacher : Option String
  roomNumber : Option String
  subjectArea : Option String
deriving DecidableEq

/-- JS template-literal stringification of a possibly-undefined string:
`undefined` interpolates as the text "undefined". -/
def jsStr : Option String → String
  | some s => s
  | none => "undefined"

/-- JS template-literal stringification of a possibly-undefined number. -/
def jsStrInt : Option Int → String
  | some n => toString n
  | none => "undefined"

/-- The `scheduleFiles` catalog (key-to-resource mapping) of the first
version of the script, lines 10-15. -/
def scheduleFiles (key : String) : Option String :=
  if key = "1" then some "SathvikSchedule.json"
  else if key = "2" then some "AadarshSchedule.json"
  else if key = "3" then some "EthanSchedule.json"
  else if key = "4" then some "HankSchedule.json"
  else none

/-- The `scheduleNames` catalog (resource-to-label mapping) of the first
version of the script, lines 17-22. -/
def scheduleNames (fileName : String) : Option String :=
  if fileName = "SathvikSchedule.json" then some "Sathvik"
  else if fileName = "AadarshSchedule.json" then some "Aadarsh"
  else if fileName = "EthanSchedule.json" then some "Ethan"
  else if fileName = "HankSchedule.json" then some "Hank"
  else none

/-- The `scheduleFiles` catalog of the second version of the script. -/
def scheduleFilesV2 (key : String) : Option String :=
  if key = "1" then some "SridarSchedule.json"
  else if key = "2" then some "AadarshSchedule.json"
  else if key = "3" then some "ChangSchedule.json"
  else if key = "4" then some "HankSchedule.json"
  else none

/-- The `scheduleNames` catalog of the second version of the script. -/
def scheduleNamesV2 (fileName : String) : Option String :=
  if fileName = "SridarSchedule.json" then some "Sridar"
  else if fileName = "AadarshSchedule.json" then some "Aadarsh"
  else if fileName = "ChangSchedule.json" then some "Chang"
  else if fileName = "HankSchedule.json" then some "Hank"
  else none

/-- The `iconMap` object literal inside `getSubjectIcon`. -/
def iconMap (subjectArea : String) : Option String :=
  if subjectArea = "Math" then some "fa-solid fa-calculator"
  else if subjectArea = "Technology" then some "fa-solid fa-laptop-code"
  else if subjectArea = "English" then some "fa-solid fa-book"
  else if subjectArea = "Science" then some "fa-solid fa-flask"
  else if subjectArea = "Health" then some "fa-solid fa-heart-pulse"
  else if subjectArea = "Physical Education" then some "fa-solid fa-person-running"
  else if subjectArea = "Social Studies" then some "fa-solid fa-landmark"
  else if subjectArea = "Financial Literacy" then some "fa-solid fa-chart-line"
  else none

/-- `getSubjectIcon`: map lookup with the `|| "fa-solid fa-book-open"`
fallback (all mapped values are non-empty, hence truthy, so the JS `||`
coincides with defaulting the absent case).  The argument is an
`Option` because the call site passes `classItem.subjectArea`, which
may be `undefined`. -/
def getSubjectIcon (subjectArea : Option String) : String :=
  (subjectArea.bind iconMap).getD "fa-solid fa-book-open"

/-- The iterative local `fib` of `calculateFibonacciDelay`
(`fib(n) = n` for `n ≤ 1`, each later value the sum of the previous
two). -/
def fibJS : Nat → Nat
  | 0 => 0
  | 1 => 1
  | n + 2 => fibJS n + fibJS (n + 1)

/-- The `subjectWeights` object literal inside `calculateFibonacciDelay`. -/
def subjectWeights (subjectArea : String) : Option ℚ :=
  if subjectArea = "Math" then some (5 / 100)
  else if subjectArea = "Technology" then some (8 / 100)
  else if subjectArea = "English" then some (12 / 100)
  else if subjectArea = "Science" then some (15 / 100)
  else if subjectArea = "Health" then some (7 / 100)
  else if subjectArea = "Physical Education" then some (3 / 100)
  else if subjectArea = "Social Studies" then some (10 / 100)
  else if subjectArea = "Financial Literacy" then some (9 / 100)
  else none

/-- `calculateFibonacciDelay(index, period, subjectArea)`.  An
`undefined` period makes the JS arithmetic produce `NaN`, modeled by a
`none` result; all defined-period arithmetic is exact-rational.  An
`undefined` or unknown subject area falls back to the weight `0.1`
(all listed weights are truthy, so `||` is defaulting). -/
def calculateFibonacciDelay (index : Nat) (period : Option Int)
    (subjectArea : Option String) : Option ℚ :=
  let fibValue : ℚ := ((fibJS (index + 1)) % 8 : Nat)
  let subjectWeight : ℚ := (subjectArea.bind subjectWeights).getD (10 / 100)
  let randomFactor : ℚ := (((index * 7) % 3 : Nat) : ℚ) * (2 / 100)
  match period with
  | none => none
  | some p =>
      some (fibValue * (1 / 10) + ((9 : ℚ) - (p : ℚ)) * (2 / 100)
        + subjectWeight + randomFactor)

/-- One rendered schedule card: the values interpolated into the fixed
HTML template of `loadSchedule`'s card-building loop (lines 148-170). -/
structure Card where
  animationDelay : Option ℚ
  period : String
  icon : String
  className : String
  teacher : String
  roomNumber : String
  subjectArea : String
deriving DecidableEq

/-- The body of the `forEach` card-building loop for one entry: icon
lookup, delay computation, and interpolation of the entry's fields. -/
def renderCard (index : Nat) (classItem : ScheduleEntry) : Card :=
  { animationDelay :=
      calculateFibonacciDelay index classItem.period classItem.subjectArea
    period := jsStrInt classItem.period
    icon := getSubjectIcon classItem.subjectArea
    className := jsStr classItem.className
    teacher := jsStr classItem.teacher
    roomNumber := jsStr classItem.roomNumber
    subjectArea := jsStr classItem.subjectArea }

/-- The `forEach` loop: one card appended per entry, with the running
index passed to the card builder. -/
def renderCards : Nat → List ScheduleEntry → List Card
  | _, [] => []
  | index, classItem :: rest =>
      renderCard index classItem :: renderCards (index + 1) rest

/-- The comparator `(a, b) => a.period - b.period`.  When either period
is `undefined` the JS subtraction yields `NaN`, which the ECMAScript
sort algorithm treats as `0` (elements compare equal). -/
def jsSortCompare (a b : ScheduleEntry) : Int :=
  match a.period, b.period with
  | some x, some y => x - y
  | _, _ => 0

/-- "a sorts no later than b" under the comparator. -/
def jsLe (a b : ScheduleEntry) : Bool :=
  decide (jsSortCompare a b ≤ 0)

/-- Insert an element into an already-sorted suffix, before the first
element it compares less-or-equal to.  An element inserted this way
goes before every later element with an equal key, which is exactly
the stability guarantee of the ECMAScript sort. -/
def orderedInsert (a : ScheduleEntry) : List ScheduleEntry → List ScheduleEntry
  | [] => [a]
  | b :: l => if jsLe a b then a :: b :: l else b :: orderedInsert a l

/-- `scheduleData.sort((a, b) => a.period - b.period)`:
`Array.prototype.sort` is required by ECMAScript 2019+ to be stable;
modeled as the stable insertion sort over the comparator. -/
def jsSort : List ScheduleEntry → List ScheduleEntry
  | [] => []
  | a :: l => orderedInsert a (jsSort l)

/-- The loading message written to `statusDiv` at the start of a load. -/
def loadingHTML : String :=
  "<div class=\"alert alert-info\"><div class=\"loading-spinner\"></div>Loading schedule...</div>"

/-- The fixed text of the error alert before the interpolated detail:
the generic message up to and including "Error details: ". -/
def errorHTMLPre : String :=
  "<div class=\"alert alert-danger error-message\"><strong>Error!</strong> Unable to load the schedule. Please check the file path and try again.<br><small>Error details: "

/-- The fixed text of the error alert after the interpolated detail. -/
def errorHTMLPost : String := "</small></div>"

/-- The error alert written to `statusDiv` by the `catch` block: the
generic message followed by the underlying error detail. -/
def errorHTML (message : String) : String :=
  errorHTMLPre ++ message ++ errorHTMLPost

/-- The settled outcome of `fetch` plus `response.json()`: the HTTP
status, and either the parsed entry list or the parse error message. -/
structure FetchResponse where
  status : Nat
  body : Except String (List ScheduleEntry)

/-- `response.ok`: per the fetch specification, true exactly when the
status is in the 2xx range. -/
def FetchResponse.ok (r : FetchResponse) : Bool :=
  decide (200 ≤ r.status ∧ r.status ≤ 299)

/-- The DOM surface the script writes to. -/
structure DisplayState where
  scheduleContainer : List Card
  statusDiv : String
  currentScheduleDisplay : String
  scheduleSelect : String
deriving DecidableEq

/-- `loadSchedule(fileName)`, with the settled fetch/parse outcome
passed in.  Mirrors the source order: show the loading message and
clear the container; throw on a non-ok status (message embedding the
status code); propagate parse errors; otherwise sort, clear the
status, set the label from `scheduleNames`, and render one card per
entry.  The `catch` block writes the error alert and the error label. -/
def loadSchedule (fileName : String) (response : FetchResponse)
    (st : DisplayState) : DisplayState :=
  let st1 : DisplayState :=
    { st with statusDiv := loadingHTML, scheduleContainer := [] }
  if response.ok = false then
    { st1 with
        statusDiv :=
          errorHTML ("Failed to load schedule: " ++ toString response.status)
        currentScheduleDisplay := "Error loading schedule" }
  else
    match response.body with
    | .error message =>
        { st1 with
            statusDiv := errorHTML message
            currentScheduleDisplay := "Error loading schedule" }
    | .ok scheduleData =>
        { st1 with
            statusDiv := ""
            currentScheduleDisplay :=
              jsStr (scheduleNames fileName) ++ "\x27s Schedule"
            scheduleContainer := renderCards 0 (jsSort scheduleData) }

/-- The dropdown `change` handler: load the select element's current
value (`event.target.value`). -/
def changeHandler (response : FetchResponse) (st : DisplayState) : DisplayState :=
  loadSchedule st.scheduleSelect response st

/-- The document `keydown` handler: if the pressed key maps to a
resource in `scheduleFiles` (all values are non-empty, hence truthy),
synchronize the dropdown to it and load it; otherwise do nothing. -/
def keydownHandler (key : String) (response : String → FetchResponse)
    (st : DisplayState) : DisplayState :=
  match scheduleFiles key with
  | some fileName =>
      loadSchedule fileName (response fileName)
        { st with scheduleSelect := fileName }
  | none => st

/-- The resource loaded by the `DOMContentLoaded` startup handler. -/
def defaultScheduleFile : String := "SathvikSchedule.json"

/-- Modelled from the spec: the option values of the dropdown control
(the `select` element lives in the page markup, which is not among the
source files here); per the spec, user-selectable identifiers are
restricted to the catalog's fixed set of resource names. -/
def dropdownOptions : List String :=
  ["SathvikSchedule.json", "AadarshSchedule.json",
   "EthanSchedule.json", "HankSchedule.json"]

/-- `s` contains `pattern` as a substring. -/
def strContains (s pattern : String) : Prop :=
  ∃ p q : String, s = p ++ (pattern ++ q)

/-- The content of a card without its presentation-only delay. -/
structure CardContent where
  period : String
  icon : String
  className : String
  teacher : String
  roomNumber : String
  subjectArea : String
deriving DecidableEq

/-- Forget a card's animation delay. -/
def Card.content (c : Card) : CardContent :=
  ⟨c.period, c.icon, c.className, c.teacher, c.roomNumber, c.subjectArea⟩

/-- The delay-free rendering of one entry (independent of its index). -/
def entryContent (e : ScheduleEntry) : CardContent :=
  ⟨jsStrInt e.period, getSubjectIcon e.subjectArea, jsStr e.className,
   jsStr e.teacher, jsStr e.roomNumber, jsStr e.subjectArea⟩

/-- Non-decreasing numeric order on periods, the order in which the
claims state sortedness of the rendered sequence. -/
def pLe (a b : ScheduleEntry) : Prop := a.period.getD 0 ≤ b.period.getD 0

/-- The eight subject areas with a dedicated icon. -/
def knownSubjectAreas : List String :=
  ["Math", "Technology", "English", "Science", "Health",
   "Physical Education", "Social Studies", "Financial Literacy"]

/-- First entry of the spec's example resource with periods `[3, 1, 2]`. -/
def exEntryA : ScheduleEntry :=
  ⟨some 3, some "Algebra", some "Ms. Alpha", some "101", some "Math"⟩

/-- Second entry of the spec's example resource with periods `[3, 1, 2]`. -/
def exEntryB : ScheduleEntry :=
  ⟨some 1, some "Biology", some "Mr. Beta", some "102", some "Science"⟩

/-- Third entry of the spec's example resource with periods `[3, 1, 2]`. -/
def exEntryC : ScheduleEntry :=
  ⟨some 2, some "Civics", some "Dr. Gamma", some "103", some "Social Studies"⟩

/-- An example display state before a load. -/
def exState : DisplayState := ⟨[], "", "", "SathvikSchedule.json"⟩

/-- An example successful response carrying the `[3, 1, 2]` resource. -/
def exResponse : FetchResponse := ⟨200, .ok [exEntryA, exEntryB, exEntryC]⟩

/-- Example entries sharing period 2, for exercising stability. -/
def exDupA : ScheduleEntry :=
  ⟨some 2, some "Art", some "T. One", some "201", some "Math"⟩

/-- Example entry with period 1, between the duplicates in source order. -/
def exDupB : ScheduleEntry :=
  ⟨some 1, some "Band", some "T. Two", some "202", some "Math"⟩

/-- Second example entry sharing period 2. -/
def exDupC : ScheduleEntry :=
  ⟨some 2, some "Choir", some "T. Three", some "203", some "Math"⟩

/-- An entry with every field absent. -/
def exMissing : ScheduleEntry := ⟨none, none, none, none, none⟩

/-- The boundedness property asserted by the spec for the animation
delay: some fixed finite range contains the delay for every index,
every positive integer period, and every subject area. -/
def delayBoundedClaim : Prop :=
  ∃ lo hi : ℚ, ∀ (index : Nat) (period : Int) (subjectArea : Option String),
    1 ≤ period →
    lo ≤ (calculateFibonacciDelay index (some period) subjectArea).getD 0 ∧
    (calculateFibonacciDelay index (some period) subjectArea).getD 0 ≤ hi

/-! Lemmas about the stable sort. -/

lemma mem_orderedInsert {c a : ScheduleEntry} (l : List ScheduleEntry) :
    c ∈ orderedInsert a l ↔ c = a ∨ c ∈ l := by
  induction l with
  | nil => simp [orderedInsert]
  | cons b l ih =>
      by_cases h : jsLe a b = true
      · simp [orderedInsert, h]
      · simp only [orderedInsert, h, if_false, Bool.false_eq_true, if_neg,
          not_false_iff, List.mem_cons, ih]
        tauto

lemma orderedInsert_perm (a : ScheduleEntry) (l : List ScheduleEntry) :
    List.Perm (orderedInsert a l) (a :: l) := by
  induction l with
  | nil => simp [orderedInsert]
  | cons b l ih =>
      by_cases h : jsLe a b = true
      · simp [orderedInsert, h]
      · simp only [orderedInsert, h, Bool.false_eq_true, if_neg, not_false_iff]
        exact (ih.cons b).trans (List.Perm.swap a b l)

lemma jsSort_perm : ∀ l : List ScheduleEntry, List.Perm (jsSort l) l
  | [] => List.Perm.refl _
  | a :: l => (orderedInsert_perm a (jsSort l)).trans ((jsSort_perm l).cons a)

lemma length_jsSort (l : List ScheduleEntry) : (jsSort l).length = l.length :=
  (jsSort_perm l).length_eq

lemma pLe_trans {a b c : ScheduleEntry} (h1 : pLe a b) (h2 : pLe b c) :
    pLe a c := le_trans h1 h2

lemma pLe_of_jsLe {a b : ScheduleEntry} (ha : a.period.isSome)
    (hb : b.period.isSome) (h : jsLe a b = true) : pLe a b := by
  obtain ⟨x, hx⟩ := Option.isSome_iff_exists.mp ha
  obtain ⟨y, hy⟩ := Option.isSome_iff_exists.mp hb
  simp [jsLe, jsSortCompare, hx, hy] at h
  simp [pLe, hx, hy]
  omega

lemma pLe_of_not_jsLe {a b : ScheduleEntry} (ha : a.period.isSome)
    (hb : b.period.isSome) (h : jsLe a b = false) : pLe b a := by
  obtain ⟨x, hx⟩ := Option.isSome_iff_exists.mp ha
  obtain ⟨y, hy⟩ := Option.isSome_iff_exists.mp hb
  simp [jsLe, jsSortCompare, hx, hy] at h
  simp [pLe, hx, hy]
  omega

lemma pairwise_orderedInsert {a : ScheduleEntry} {l : List ScheduleEntry}
    (ha : a.period.isSome) (hl : ∀ e ∈ l, e.period.isSome)
    (hs : l.Pairwise pLe) : (orderedInsert a l).Pairwise pLe := by
  induction l with
  | nil => simp [orderedInsert]
  | cons b l ih =>
      have hb : b.period.isSome := hl b (by simp)
      have hl' : ∀ e ∈ l, e.period.isSome := fun e he => hl e (by simp [he])
      rcases List.pairwise_cons.mp hs with ⟨hbl, hsl⟩
      by_cases h : jsLe a b = true
      · simp only [orderedInsert, h, if_true, if_pos]
        refine List.pairwise_cons.mpr ⟨?_, hs⟩
        intro c hc
        rcases List.mem_cons.mp hc with rfl | hc
        · exact pLe_of_jsLe ha hb h
        · exact pLe_trans (pLe_of_jsLe ha hb h) (hbl c hc)
      · have h' : jsLe a b = false := by simpa using h
        simp only [orderedInsert, h, Bool.false_eq_true, if_neg, not_false_iff]
        refine List.pairwise_cons.mpr ⟨?_, ih hl' hsl⟩
        intro c hc
        rcases (mem_orderedInsert l).mp hc with rfl | hc
        · exact pLe_of_not_jsLe ha hb h'
        · exact hbl c hc

lemma jsSort_pairwise {l : List ScheduleEntry}
    (h : ∀ e ∈ l, e.period.isSome) : (jsSort l).Pairwise pLe := by
  induction l with
  | nil => simp [jsSort]
  | cons a l ih =>
      have ha := h a (by simp)
      have hl : ∀ e ∈ l, e.period.isSome := fun e he => h e (by simp [he])
      have hmem : ∀ e ∈ jsSort l, e.period.isSome := fun e he =>
        hl e ((jsSort_perm l).mem_iff.mp he)
      exact pairwise_orderedInsert ha hmem (ih hl)

lemma filter_orderedInsert_pos (q : ScheduleEntry → Bool) {a : ScheduleEntry}
    (hq : q a = true) (hstop : ∀ b, q b = true → jsLe a b = true)
    (l : List ScheduleEntry) :
    (orderedInsert a l).filter q = a :: l.filter q := by
  induction l with
  | nil => simp [orderedInsert, hq]
  | cons b l ih =>
      by_cases h : jsLe a b = true
      · simp [orderedInsert, h, List.filter_cons, hq]
      · have hqb : q b = false := by
          by_contra hqb'
          exact h (hstop b (by simpa using hqb'))
        simp [orderedInsert, h, List.filter_cons, hqb, ih]

lemma filter_orderedInsert_neg (q : ScheduleEntry → Bool) {a : ScheduleEntry}
    (hq : q a = false) (l : List ScheduleEntry) :
    (orderedInsert a l).filter q = l.filter q := by
  induction l with
  | nil => simp [orderedInsert, hq]
  | cons b l ih =>
      by_cases h : jsLe a b = true
      · simp [orderedInsert, h, List.filter_cons, hq]
      · simp [orderedInsert, h, List.filter_cons, ih]

lemma jsSort_filter_period (p : Int) : ∀ l : List ScheduleEntry,
    (jsSort l).filter (fun e => decide (e.period = some p))
      = l.filter (fun e => decide (e.period = some p))
  | [] => rfl
  | a :: l => by
      by_cases ha : a.period = some p
      · rw [jsSort,
          filter_orderedInsert_pos _ (by simp [ha])
            (fun b hb => by
              simp only [decide_eq_true_eq] at hb
              simp [jsLe, jsSortCompare, ha, hb]),
          jsSort_filter_period p l]
        simp [List.filter_cons, ha]
      · rw [jsSort, filter_orderedInsert_neg _ (by simp [ha]),
          jsSort_filter_period p l]
        simp [List.filter_cons, ha]

/-! Lemmas about rendering and the loader's three outcomes. -/

lemma length_renderCards : ∀ (i : Nat) (l : List ScheduleEntry),
    (renderCards i l).length = l.length
  | _, [] => rfl
  | i, _ :: l => by simp [renderCards, length_renderCards (i + 1) l]

lemma renderCards_map_content : ∀ (i : Nat) (l : List ScheduleEntry),
    (renderCards i l).map Card.content = l.map entryContent
  | _, [] => rfl
  | i, e :: l => by
      simp [renderCards, renderCards_map_content (i + 1) l, Card.content,
        renderCard, entryContent]

lemma loadSchedule_of_ok {fileName : String} {response : FetchResponse}
    {st : DisplayState} {scheduleData : List ScheduleEntry}
    (hok : response.ok = true) (hbody : response.body = .ok scheduleData) :
    loadSchedule fileName response st =
      { scheduleContainer := renderCards 0 (jsSort scheduleData)
        statusDiv := ""
        currentScheduleDisplay :=
          jsStr (scheduleNames fileName) ++ "\x27s Schedule"
        scheduleSelect := st.scheduleSelect } := by
  simp [loadSchedule, hok, hbody]

lemma loadSchedule_of_statusError {fileName : String}
    {response : FetchResponse} {st : DisplayState}
    (hok : response.ok = false) :
    loadSchedule fileName response st =
      { scheduleContainer := []
        statusDiv :=
          errorHTML ("Failed to load schedule: " ++ toString response.status)
        currentScheduleDisplay := "Error loading schedule"
        scheduleSelect := st.scheduleSelect } := by
  simp [loadSchedule, hok]

lemma loadSchedule_of_parseError {fileName : String}
    {response : FetchResponse} {st : DisplayState} {message : String}
    (hok : response.ok = true) (hbody : response.body = .error message) :
    loadSchedule fileName response st =
      { scheduleContainer := []
        statusDiv := errorHTML message
        currentScheduleDisplay := "Error loading schedule"
        scheduleSelect := st.scheduleSelect } := by
  simp [loadSchedule, hok, hbody]

lemma loadSchedule_scheduleSelect (fileName : String)
    (response : FetchResponse) (st : DisplayState) :
    (loadSchedule fileName response st).scheduleSelect = st.scheduleSelect := by
  by_cases hok : response.ok = true
  · cases hbody : response.body with
    | error message => rw [loadSchedule_of_parseError hok hbody]
    | ok scheduleData => rw [loadSchedule_of_ok hok hbody]
  · rw [loadSchedule_of_statusError (by simpa using hok)]

/-! The claims. -/

/-- Claim C1: whenever the fetch succeeds and the body parses to a
list of entries, `loadSchedule` renders one card per entry in
non-decreasing `period` order; in particular the example resource with
periods `[3, 1, 2]` renders in order `[1, 2, 3]` with each entry's
original fields unchanged in its rendered card. -/
theorem loadSchedule_sorted_C1 :
    (∀ (fileName : String) (st : DisplayState) (response : FetchResponse)
        (scheduleData : List ScheduleEntry),
      response.ok = true → response.body = .ok scheduleData →
      (∀ e ∈ scheduleData, e.period.isSome) →
      (loadSchedule fileName response st).scheduleContainer
          = renderCards 0 (jsSort scheduleData) ∧
        (jsSort scheduleData).Pairwise pLe) ∧
    jsSort [exEntryA, exEntryB, exEntryC] = [exEntryB, exEntryC, exEntryA] ∧
    (loadSchedule "SathvikSchedule.json" exResponse exState).scheduleContainer
        = [renderCard 0 exEntryB, renderCard 1 exEntryC,
           renderCard 2 exEntryA] ∧
    (renderCard 0 exEntryB).period = "1" ∧
    (renderCard 0 exEntryB).className = "Biology" ∧
    (renderCard 0 exEntryB).teacher = "Mr. Beta" ∧
    (renderCard 0 exEntryB).roomNumber = "102" ∧
    (renderCard 0 exEntryB).subjectArea = "Science" ∧
    (renderCard 1 exEntryC).period = "2" ∧
    (renderCard 1 exEntryC).className = "Civics" ∧
    (renderCard 1 exEntryC).teacher = "Dr. Gamma" ∧
    (renderCard 1 exEntryC).roomNumber = "103" ∧
    (renderCard 1 exEntryC).subjectArea = "Social Studies" ∧
    (renderCard 2 exEntryA).period = "3" ∧
    (renderCard 2 exEntryA).className = "Algebra" ∧
    (renderCard 2 exEntryA).teacher = "Ms. Alpha" ∧
    (renderCard 2 exEntryA).roomNumber = "101" ∧
    (renderCard 2 exEntryA).subjectArea = "Math" := by
  refine ⟨?_, by decide, ?_, ?_⟩
  · intro fileName st response scheduleData hok hbody hsome
    rw [loadSchedule_of_ok hok hbody]
    exact ⟨rfl, jsSort_pairwise hsome⟩
  · have hok : exResponse.ok = true := by decide
    have hbody : exResponse.body = Except.ok [exEntryA, exEntryB, exEntryC] :=
      rfl
    rw [loadSchedule_of_ok hok hbody]
    rw [show jsSort [exEntryA, exEntryB, exEntryC]
        = [exEntryB, exEntryC, exEntryA] from by decide]
    simp [renderCards]
  · refine ⟨by decide, by decide, by decide, by decide, by decide, by decide,
      by decide, by decide, by decide, by decide, by decide, by decide,
      by decide, by decide, by decide⟩

/-- Witness for C1 at the spec's `[3, 1, 2]` example. -/
theorem loadSchedule_sorted_C1_witness :
    (loadSchedule "SathvikSchedule.json" exResponse exState).scheduleContainer
        = renderCards 0 (jsSort [exEntryA, exEntryB, exEntryC]) ∧
      (jsSort [exEntryA, exEntryB, exEntryC]).Pairwise pLe :=
  loadSchedule_sorted_C1.1 "SathvikSchedule.json" exState exResponse
    [exEntryA, exEntryB, exEntryC] (by decide) rfl (by decide)

/-- Claim C2: the sort performed by `loadSchedule` is stable: for every
successfully fetched and parsed entry list and every period value, the
entries carrying that period value appear in the rendered output in
exactly their source order. -/
theorem loadSchedule_stable_C2 :
    ∀ (fileName : String) (st : DisplayState) (response : FetchResponse)
      (scheduleData : List ScheduleEntry) (p : Int),
      response.ok = true → response.body = .ok scheduleData →
      (loadSchedule fileName response st).scheduleContainer
          = renderCards 0 (jsSort scheduleData) ∧
        (jsSort scheduleData).filter (fun e => decide (e.period = some p))
          = scheduleData.filter (fun e => decide (e.period = some p)) := by
  intro fileName st response scheduleData p hok hbody
  rw [loadSchedule_of_ok hok hbody]
  exact ⟨rfl, jsSort_filter_period p scheduleData⟩

/-- Witness for C2 on a list with two entries sharing period 2. -/
theorem loadSchedule_stable_C2_witness :
    (loadSchedule "HankSchedule.json" ⟨200, Except.ok [exDupA, exDupB, exDupC]⟩
          exState).scheduleContainer
        = renderCards 0 (jsSort [exDupA, exDupB, exDupC]) ∧
      (jsSort [exDupA, exDupB, exDupC]).filter
          (fun e => decide (e.period = some 2))
        = [exDupA, exDupB, exDupC].filter
            (fun e => decide (e.period = some 2)) :=
  loadSchedule_stable_C2 "HankSchedule.json" exState
    ⟨200, Except.ok [exDupA, exDupB, exDupC]⟩ [exDupA, exDupB, exDupC] 2
    (by decide) rfl

/-- Claim C4: rendering is all-or-nothing: at the end of every
invocation the container either holds exactly one card per entry of
the fetched list, in sorted order, or holds no cards at all. -/
theorem loadSchedule_allOrNothing_C4 :
    ∀ (fileName : String) (st : DisplayState) (response : FetchResponse),
      (∃ scheduleData, response.ok = true ∧
        response.body = .ok scheduleData ∧
        (loadSchedule fileName response st).scheduleContainer
            = renderCards 0 (jsSort scheduleData) ∧
          (loadSchedule fileName response st).scheduleContainer.length
            = scheduleData.length) ∨
      (loadSchedule fileName response st).scheduleContainer = [] := by
  intro fileName st response
  by_cases hok : response.ok = true
  · cases hbody : response.body with
    | error message =>
        right
        rw [loadSchedule_of_parseError hok hbody]
    | ok scheduleData =>
        left
        refine ⟨scheduleData, hok, rfl, ?_, ?_⟩
        · rw [loadSchedule_of_ok hok hbody]
        · rw [loadSchedule_of_ok hok hbody]
          simp [length_renderCards, length_jsSort]
  · right
    rw [loadSchedule_of_statusError (by simpa using hok)]

/-- Claim C8: `loadSchedule` performs no validation: every entry of the
parsed list yields a card, and each missing field of an entry appears
as the text "undefined" in its rendered card. -/
theorem render_noValidation_C8 :
    ∀ (fileName : String) (st : DisplayState) (response : FetchResponse)
      (scheduleData : List ScheduleEntry),
      response.ok = true → response.body = .ok scheduleData →
      (loadSchedule fileName response st).scheduleContainer.length
          = scheduleData.length ∧
        (∀ (index : Nat) (e : ScheduleEntry),
          (e.period = none → (renderCard index e).period = "undefined") ∧
          (e.className = none → (renderCard index e).className = "undefined") ∧
          (e.teacher = none → (renderCard index e).teacher = "undefined") ∧
          (e.roomNumber = none →
            (renderCard index e).roomNumber = "undefined") ∧
          (e.subjectArea = none →
            (renderCard index e).subjectArea = "undefined")) := by
  intro fileName st response scheduleData hok hbody
  constructor
  · rw [loadSchedule_of_ok hok hbody]
    simp [length_renderCards, length_jsSort]
  · intro index e
    refine ⟨?_, ?_, ?_, ?_, ?_⟩ <;>
      intro h <;> simp [renderCard, jsStr, jsStrInt, h]

/-- Witness for C8 on a one-entry resource whose entry has every field
absent. -/
theorem render_noValidation_C8_witness :
    (loadSchedule "SathvikSchedule.json" ⟨200, Except.ok [exMissing]⟩
          exState).scheduleContainer.length = [exMissing].length ∧
      (renderCard 0 exMissing).teacher = "undefined" :=
  ⟨(render_noValidation_C8 "SathvikSchedule.json" exState
      ⟨200, Except.ok [exMissing]⟩ [exMissing] (by decide) rfl).1,
   ((render_noValidation_C8 "SathvikSchedule.json" exState
      ⟨200, Except.ok [exMissing]⟩ [exMissing] (by decide) rfl).2 0
      exMissing).2.2.1 rfl⟩

/-- Claim C3: when the response status is non-success or the body
fails to parse, `loadSchedule` catches the error: the status region
shows the generic error alert with the underlying detail, the schedule
label becomes "Error loading schedule", no schedule entry is rendered,
and in the non-success-status case the displayed detail contains the
status code, so a 404 response yields a message containing "404". -/
theorem loadSchedule_error_C3 :
    ∀ (fileName : String) (st : DisplayState) (response : FetchResponse),
      (response.ok = false ∨ ∃ message, response.body = .error message) →
      (loadSchedule fileName response st).currentScheduleDisplay
          = "Error loading schedule" ∧
        (loadSchedule fileName response st).scheduleContainer = [] ∧
        (response.ok = false →
          (loadSchedule fileName response st).statusDiv
              = errorHTML ("Failed to load schedule: "
                  ++ toString response.status) ∧
            strContains (loadSchedule fileName response st).statusDiv
              (toString response.status)) ∧
        (∀ message, response.ok = true → response.body = .error message →
          (loadSchedule fileName response st).statusDiv
            = errorHTML message) ∧
        (response.status = 404 →
          strContains (loadSchedule fileName response st).statusDiv "404") := by
  intro fileName st response herr
  by_cases hok : response.ok = true
  · have hmsg : ∃ message, response.body = .error message := by
      rcases herr with h | h
      · rw [hok] at h
        exact absurd h (by simp)
      · exact h
    obtain ⟨message, hbody⟩ := hmsg
    rw [loadSchedule_of_parseError hok hbody]
    refine ⟨rfl, rfl, ?_, ?_, ?_⟩
    · intro hfalse
      rw [hfalse] at hok
      exact absurd hok (by simp)
    · intro message' _ hbody'
      rw [hbody] at hbody'
      injection hbody' with hmsg'
      rw [hmsg']
    · intro h404
      exfalso
      have : response.ok = false := by
        simp [FetchResponse.ok, h404]
      rw [this] at hok
      exact absurd hok (by simp)
  · have hok' : response.ok = false := by simpa using hok
    rw [loadSchedule_of_statusError hok']
    refine ⟨rfl, rfl, ?_, ?_, ?_⟩
    · intro _
      refine ⟨rfl, ?_⟩
      exact ⟨errorHTMLPre ++ "Failed to load schedule: ", errorHTMLPost,
        by simp [errorHTML, String.append_assoc]⟩
    · intro message hok'' _
      rw [hok''] at hok'
      exact absurd hok' (by simp)
    · intro h404
      rw [h404]
      exact ⟨errorHTMLPre ++ "Failed to load schedule: ", errorHTMLPost,
        by simp [errorHTML, String.append_assoc]
           rfl⟩

/-- Witness for C3 at a 404 response and at a parse failure. -/
theorem loadSchedule_error_C3_witness :
    strContains
        (loadSchedule "SathvikSchedule.json" ⟨404, Except.error "boom"⟩
            exState).statusDiv "404" ∧
      (loadSchedule "SathvikSchedule.json" ⟨200, Except.error "boom"⟩
          exState).statusDiv = errorHTML "boom" :=
  ⟨(loadSchedule_error_C3 "SathvikSchedule.json" exState
      ⟨404, Except.error "boom"⟩ (Or.inl (by decide))).2.2.2.2 rfl,
   (loadSchedule_error_C3 "SathvikSchedule.json" exState
      ⟨200, Except.error "boom"⟩ (Or.inr ⟨"boom", rfl⟩)).2.2.2.1 "boom"
     (by decide) rfl⟩

/-- Claim C5: a keydown whose key is not one of the mapped selector
keys "1".."4" is a no-op: the whole display state (container, status
region, label, dropdown selection) is left unchanged and no load is
initiated. -/
theorem keydown_unmapped_C5 :
    ∀ (key : String) (response : String → FetchResponse) (st : DisplayState),
      key ≠ "1" → key ≠ "2" → key ≠ "3" → key ≠ "4" →
      keydownHandler key response st = st := by
  intro key response st h1 h2 h3 h4
  simp [keydownHandler, scheduleFiles, h1, h2, h3, h4]

/-- Witness for C5 at the unmapped key "x". -/
theorem keydown_unmapped_C5_witness :
    keydownHandler "x" (fun _ => ⟨200, Except.ok []⟩) exState = exState :=
  keydown_unmapped_C5 "x" (fun _ => ⟨200, Except.ok []⟩) exState
    (by decide) (by decide) (by decide) (by decide)

/-- Claim C6: for a mapped key resolving to resource `fileName`,
pressing the key and choosing `fileName` in the dropdown invoke the
loader identically and produce the same final state; the keyboard
handler also leaves the dropdown selection synchronized to
`fileName`. -/
theorem handlers_equiv_C6 :
    ∀ (key fileName : String) (response : String → FetchResponse)
      (st : DisplayState),
      scheduleFiles key = some fileName →
      (keydownHandler key response st).scheduleSelect = fileName ∧
      keydownHandler key response st
        = changeHandler (response fileName)
            { st with scheduleSelect := fileName } := by
  intro key fileName response st h
  have h1 : keydownHandler key response st
      = loadSchedule fileName (response fileName)
          { st with scheduleSelect := fileName } := by
    simp [keydownHandler, h]
  refine ⟨?_, ?_⟩
  · rw [h1, loadSchedule_scheduleSelect]
  · rw [h1]
    simp [changeHandler]

/-- Witness for C6 at key "1". -/
theorem handlers_equiv_C6_witness :
    (keydownHandler "1" (fun _ => ⟨200, Except.ok []⟩)
          exState).scheduleSelect = "SathvikSchedule.json" ∧
      keydownHandler "1" (fun _ => ⟨200, Except.ok []⟩) exState
        = changeHandler ⟨200, Except.ok []⟩
            { exState with scheduleSelect := "SathvikSchedule.json" } :=
  handlers_equiv_C6 "1" "SathvikSchedule.json" (fun _ => ⟨200, Except.ok []⟩)
    exState (by decide)

/-- Claim C9: catalog consistency: every resource name that is a value
of `scheduleFiles` (in either version of the script) has an entry in
the corresponding `scheduleNames`; every dropdown option and the
startup default do as well; hence every success-path label is built
from a defined display name. -/
theorem catalogConsistent_C9 :
    (∀ key fileName, scheduleFiles key = some fileName →
      (scheduleNames fileName).isSome = true) ∧
    (∀ key fileName, scheduleFilesV2 key = some fileName →
      (scheduleNamesV2 fileName).isSome = true) ∧
    (∀ fileName ∈ dropdownOptions, (scheduleNames fileName).isSome = true) ∧
    (scheduleNames defaultScheduleFile).isSome = true ∧
    (∀ (fileName name : String) (st : DisplayState)
       (response : FetchResponse) (scheduleData : List ScheduleEntry),
      scheduleNames fileName = some name →
      response.ok = true → response.body = .ok scheduleData →
      (loadSchedule fileName response st).currentScheduleDisplay
        = name ++ "\x27s Schedule") := by
  refine ⟨?_, ?_, ?_, by decide, ?_⟩
  · intro key fileName h
    unfold scheduleFiles at h
    split_ifs at h <;>
      first
        | exact Option.noConfusion h
        | (injection h with h; subst h; decide)
  · intro key fileName h
    unfold scheduleFilesV2 at h
    split_ifs at h <;>
      first
        | exact Option.noConfusion h
        | (injection h with h; subst h; decide)
  · intro fileName h
    simp only [dropdownOptions, List.mem_cons, List.not_mem_nil,
      or_false] at h
    rcases h with rfl | rfl | rfl | rfl <;> decide
  · intro fileName name st response scheduleData hname hok hbody
    rw [loadSchedule_of_ok hok hbody]
    simp [hname, jsStr]

/-- Witness for C9: key "1" resolves to a resource with a defined
display name, and the startup default load labels the page from it. -/
theorem catalogConsistent_C9_witness :
    (scheduleNames "SathvikSchedule.json").isSome = true ∧
      (loadSchedule "SathvikSchedule.json" exResponse
          exState).currentScheduleDisplay = "Sathvik" ++ "\x27s Schedule" :=
  ⟨catalogConsistent_C9.1 "1" "SathvikSchedule.json" (by decide),
   catalogConsistent_C9.2.2.2.2 "SathvikSchedule.json" "Sathvik" exState
     exResponse [exEntryA, exEntryB, exEntryC] (by decide) (by decide) rfl⟩

/-- Claim C10: `getSubjectIcon` returns the mapped icon class for each
of the eight known subject areas and the fallback
"fa-solid fa-book-open" for every other input, including an absent
subject area; it never returns the empty string. -/
theorem getSubjectIcon_total_C10 :
    (getSubjectIcon (some "Math") = "fa-solid fa-calculator" ∧
      getSubjectIcon (some "Technology") = "fa-solid fa-laptop-code" ∧
      getSubjectIcon (some "English") = "fa-solid fa-book" ∧
      getSubjectIcon (some "Science") = "fa-solid fa-flask" ∧
      getSubjectIcon (some "Health") = "fa-solid fa-heart-pulse" ∧
      getSubjectIcon (some "Physical Education")
        = "fa-solid fa-person-running" ∧
      getSubjectIcon (some "Social Studies") = "fa-solid fa-landmark" ∧
      getSubjectIcon (some "Financial Literacy")
        = "fa-solid fa-chart-line") ∧
    getSubjectIcon none = "fa-solid fa-book-open" ∧
    (∀ s : Option String, (∀ k ∈ knownSubjectAreas, s ≠ some k) →
      getSubjectIcon s = "fa-solid fa-book-open") ∧
    (∀ s : Option String, getSubjectIcon s ≠ "") := by
  refine ⟨by decide, by decide, ?_, ?_⟩
  · intro s hs
    cases s with
    | none => decide
    | some v =>
        have h1 : ¬(v = "Math") := fun h =>
          hs "Math" (by decide) (by rw [h])
        have h2 : ¬(v = "Technology") := fun h =>
          hs "Technology" (by decide) (by rw [h])
        have h3 : ¬(v = "English") := fun h =>
          hs "English" (by decide) (by rw [h])
        have h4 : ¬(v = "Science") := fun h =>
          hs "Science" (by decide) (by rw [h])
        have h5 : ¬(v = "Health") := fun h =>
          hs "Health" (by decide) (by rw [h])
        have h6 : ¬(v = "Physical Education") := fun h =>
          hs "Physical Education" (by decide) (by rw [h])
        have h7 : ¬(v = "Social Studies") := fun h =>
          hs "Social Studies" (by decide) (by rw [h])
        have h8 : ¬(v = "Financial Literacy") := fun h =>
          hs "Financial Literacy" (by decide) (by rw [h])
        simp [getSubjectIcon, iconMap, h1, h2, h3, h4, h5, h6, h7, h8]
  · intro s
    cases s with
    | none => decide
    | some v =>
        simp only [getSubjectIcon, Option.some_bind, iconMap]
        split_ifs <;> decide

/-- Witness for C10 at the unknown subject area "Recess". -/
theorem getSubjectIcon_total_C10_witness :
    getSubjectIcon (some "Recess") = "fa-solid fa-book-open" :=
  getSubjectIcon_total_C10.2.2.1 (some "Recess") (by decide)

lemma calculateFibonacciDelay_eq (index : Nat) (p : Int)
    (s : Option String) :
    calculateFibonacciDelay index (some p) s
      = some (((fibJS (index + 1) % 8 : Nat) : ℚ) * (1 / 10)
          + ((9 : ℚ) - (p : ℚ)) * (2 / 100)
          + (s.bind subjectWeights).getD (10 / 100)
          + ((index * 7 % 3 : Nat) : ℚ) * (2 / 100)) := rfl

lemma subjectWeight_bounds (s : Option String) :
    3 / 100 ≤ (s.bind subjectWeights).getD ((10 : ℚ) / 100) ∧
      (s.bind subjectWeights).getD ((10 : ℚ) / 100) ≤ 15 / 100 := by
  cases s with
  | none => norm_num
  | some v =>
      simp only [Option.some_bind]
      unfold subjectWeights
      split_ifs <;> norm_num

/-- Claim C7, counterexample: the delay is not confined to any fixed
finite range over all positive integer periods — the period weight
`(9 - period) * 0.02` decreases without bound as the period grows, so
for every candidate lower bound some period drives the delay below
it. -/
theorem calculateFibonacciDelay_unbounded_C7 : ¬ delayBoundedClaim := by
  rintro ⟨lo, hi, h⟩
  set p : Int := max 1 (⌈(19 : ℚ) - 50 * lo⌉ + 1)
  have hp1 : (1 : Int) ≤ p := le_max_left _ _
  have hlow := (h 0 p none hp1).1
  have hval : (calculateFibonacciDelay 0 (some p) none).getD 0
      = 1 / 5 + ((9 : ℚ) - (p : ℚ)) * (2 / 100) := by
    rw [calculateFibonacciDelay_eq]
    norm_num [fibJS]
    ring
  rw [hval] at hlow
  have hceil : (19 : ℚ) - 50 * lo ≤ (⌈(19 : ℚ) - 50 * lo⌉ : ℚ) :=
    Int.le_ceil _
  have hple : ((⌈(19 : ℚ) - 50 * lo⌉ + 1 : Int) : ℚ) ≤ (p : ℚ) := by
    exact_mod_cast le_max_right 1 (⌈(19 : ℚ) - 50 * lo⌉ + 1)
  push_cast at hple
  linarith

/-- Claim C7, amended: the delay attached to each rendered card is a
deterministic function of the entry's index, period and subject area
alone; for every index, every period in the school range 1..9, and
every subject area it lies in the fixed range [0.03, 1.05]; and the
delay affects neither the order nor the delay-free content of the
rendered cards. -/
theorem calculateFibonacciDelay_bounded_C7 :
    (∀ (index : Nat) (period : Int) (subjectArea : Option String),
      1 ≤ period → period ≤ 9 →
      ∃ d : ℚ, calculateFibonacciDelay index (some period) subjectArea
          = some d ∧ 3 / 100 ≤ d ∧ d ≤ 105 / 100) ∧
    (∀ (fileName : String) (st : DisplayState) (response : FetchResponse)
       (scheduleData : List ScheduleEntry),
      response.ok = true → response.body = .ok scheduleData →
      ((loadSchedule fileName response st).scheduleContainer).map
          Card.content
        = (jsSort scheduleData).map entryContent) := by
  constructor
  · intro index period subjectArea hp1 hp9
    have hfib : ((fibJS (index + 1) % 8 : Nat) : ℚ) ≤ 7 := by
      have h7 : fibJS (index + 1) % 8 ≤ 7 :=
        Nat.le_of_lt_succ (Nat.mod_lt _ (by norm_num))
      exact_mod_cast h7
    have hfib0 : (0 : ℚ) ≤ ((fibJS (index + 1) % 8 : Nat) : ℚ) :=
      Nat.cast_nonneg _
    have hrand : ((index * 7 % 3 : Nat) : ℚ) ≤ 2 := by
      have h2 : index * 7 % 3 ≤ 2 :=
        Nat.le_of_lt_succ (Nat.mod_lt _ (by norm_num))
      exact_mod_cast h2
    have hrand0 : (0 : ℚ) ≤ ((index * 7 % 3 : Nat) : ℚ) :=
      Nat.cast_nonneg _
    have hw := subjectWeight_bounds subjectArea
    have hpq1 : (1 : ℚ) ≤ (period : ℚ) := by exact_mod_cast hp1
    have hpq9 : (period : ℚ) ≤ 9 := by exact_mod_cast hp9
    refine ⟨_, calculateFibonacciDelay_eq index period subjectArea, ?_, ?_⟩
    · linarith [hw.1, hw.2]
    · linarith [hw.1, hw.2]
  · intro fileName st response scheduleData hok hbody
    rw [loadSchedule_of_ok hok hbody]
    exact renderCards_map_content 0 _

/-- Witness for the amended C7 at index 0, period 5, subject "Math",
and at the spec's example load. -/
theorem calculateFibonacciDelay_bounded_C7_witness :
    (∃ d : ℚ, calculateFibonacciDelay 0 (some 5) (some "Math") = some d ∧
        3 / 100 ≤ d ∧ d ≤ 105 / 100) ∧
      ((loadSchedule "SathvikSchedule.json" exResponse
            exState).scheduleContainer).map Card.content
        = (jsSort [exEntryA, exEntryB, exEntryC]).map entryContent :=
  ⟨calculateFibonacciDelay_bounded_C7.1 0 5 (some "Math")
      (by decide) (by decide),
   calculateFibonacciDelay_bounded_C7.2 "SathvikSchedule.json" exState
     exResponse [exEntryA, exEntryB, exEntryC] (by decide) rfl⟩

end ClassSchedule
